import Mathlib

/-!
Shallow embedding of `rbx_reflection/src/lib.rs` (FilamentGames/rbx-dom).

The crate defines a reflection metadata model: a `ReflectionDatabase` mapping
class names to `ClassDescriptor`s, each holding `PropertyDescriptor`s, plus two
bit-flag tag sets (`InstanceTags`, `PropertyTags`) generated by the
`bitterflag!` macro, which wraps `bitflags!` and adds an `IntoIterator`
implementation filtering the canonical ordered flag list by `contains`.

Machine integers (`u32` flag sets) are embedded as `Nat`; the bitflags type
invariant (only declared bits are ever set in a safe value) appears as an
explicit bound hypothesis where a theorem needs it.  `HashMap`s are embedded
as association lists.  Fallible parsing (`FromStr`) returns `Except`.
-/

deriving instance DecidableEq for Except

/-- Rust `enum Scriptability` (five variants, `#[non_exhaustive]`). -/
inductive Scriptability where
  | None
  | ReadWrite
  | Read
  | Write
  | Custom
deriving DecidableEq, Repr

/-- Modelled from the spec: `rbx_types::Variant` is external to `src/` (it
lives in the sibling `rbx_types` crate); the spec describes it only as "a
typed value" drawn from "an external, closed enumeration of value kinds".
We model it as an opaque-to-this-crate wrapper around an index into that
external vocabulary. -/
inductive Variant where
  | mk : Nat → Variant
deriving DecidableEq, Repr

/-- Rust `struct PropertyDescriptor<'a>` (fields `name`, `scriptability`). -/
structure PropertyDescriptor where
  name : String
  scriptability : Scriptability
deriving DecidableEq, Repr

/-- Rust `PropertyDescriptor::new`: the given name with `Scriptability::None`. -/
def PropertyDescriptor.new (name : String) : PropertyDescriptor :=
  { name := name, scriptability := Scriptability.None }

/-- Rust `struct ClassDescriptor<'a>`; the two `HashMap`s are embedded as
association lists. -/
structure ClassDescriptor where
  name : String
  superclass : Option String
  properties : List (String × PropertyDescriptor)
  default_properties : List (String × Variant)
deriving DecidableEq, Repr

/-- Rust `ClassDescriptor::new`: the given name, no superclass, empty maps. -/
def ClassDescriptor.new (name : String) : ClassDescriptor :=
  { name := name
    superclass := Option.none
    properties := []
    default_properties := [] }

/-- Rust `struct ReflectionDatabase<'a>`: a `[u32; 4]` version stamp and the
class map, embedded as an association list. -/
structure ReflectionDatabase where
  version : Nat × Nat × Nat × Nat
  classes : List (String × ClassDescriptor)
deriving DecidableEq, Repr

/-- Rust `ReflectionDatabase::new`: version `[0, 0, 0, 0]`, no classes. -/
def ReflectionDatabase.new : ReflectionDatabase :=
  { version := (0, 0, 0, 0), classes := [] }

/-- `bitflags`-generated `contains`: `self.bits & other.bits == other.bits`,
shared by both tag kinds (the `bitterflag!` macro instantiates the same code
for each). -/
def Tags.contains (v flag : Nat) : Bool :=
  v &&& flag == flag

/-- Number of set bits of a `u32` value: bits `0..32` that test true. -/
def popcount (n : Nat) : Nat :=
  ((List.range 32).filter (fun i => n.testBit i)).length

namespace InstanceTags

def DEPRECATED : Nat := 0x1
def NOT_BROWSABLE : Nat := 0x2
def NOT_CREATABLE : Nat := 0x4
def NOT_REPLICATED : Nat := 0x8
def PLAYER_REPLICATED : Nat := 0x10
def SERVICE : Nat := 0x20
def SETTINGS : Nat := 0x40
def USER_SETTINGS : Nat := 0x80

/-- The `static ALL_TAGS` slice generated by `bitterflag!` for
`InstanceTags`: every declared constant in declaration order. -/
def ALL_TAGS : List Nat :=
  [DEPRECATED, NOT_BROWSABLE, NOT_CREATABLE, NOT_REPLICATED,
   PLAYER_REPLICATED, SERVICE, SETTINGS, USER_SETTINGS]

/-- `IntoIterator for InstanceTags`: the iterator yields `ALL_TAGS` filtered
by `self.contains(*flag)`; embedded as the list of produced items. -/
def into_iter (v : Nat) : List Nat :=
  ALL_TAGS.filter (fun flag => Tags.contains v flag)

end InstanceTags

/-- Rust `struct InstanceTagsFromStrError(String)`. -/
inductive InstanceTagsFromStrError where
  | mk : String → InstanceTagsFromStrError
deriving DecidableEq, Repr

namespace InstanceTags

/-- `impl FromStr for InstanceTags`: exact match against the canonical
names, any other string is an error carrying the string verbatim. -/
def from_str (value : String) : Except InstanceTagsFromStrError Nat :=
  if value = "Deprecated" then .ok DEPRECATED
  else if value = "NotBrowsable" then .ok NOT_BROWSABLE
  else if value = "NotCreatable" then .ok NOT_CREATABLE
  else if value = "NotReplicated" then .ok NOT_REPLICATED
  else if value = "PlayerReplicated" then .ok PLAYER_REPLICATED
  else if value = "Service" then .ok SERVICE
  else if value = "Settings" then .ok SETTINGS
  else if value = "UserSettings" then .ok USER_SETTINGS
  else .error (InstanceTagsFromStrError.mk value)

/-- The canonical (name, flag) table of `InstanceTags`, read off the
`FromStr` match arms in order. -/
def table : List (String × Nat) :=
  [("Deprecated", DEPRECATED), ("NotBrowsable", NOT_BROWSABLE),
   ("NotCreatable", NOT_CREATABLE), ("NotReplicated", NOT_REPLICATED),
   ("PlayerReplicated", PLAYER_REPLICATED), ("Service", SERVICE),
   ("Settings", SETTINGS), ("UserSettings", USER_SETTINGS)]

/-- The canonical names of `InstanceTags`. -/
def names : List String := table.map Prod.fst

/-- Modelled from the spec: "expose the reverse mapping (flag → canonical
name)"; no such function exists under `src/`, so we model it as the lookup
of a flag's declared name in the canonical table, which is what the spec
says stringifying is ("look up its declared name"). -/
def to_str (flag : Nat) : Option String :=
  (table.find? (fun p => p.2 == flag)).map Prod.fst

end InstanceTags

namespace PropertyTags

def DEPRECATED : Nat := 0x1
def HIDDEN : Nat := 0x2
def NOT_BROWSABLE : Nat := 0x4
def NOT_REPLICATED : Nat := 0x8
def NOT_SCRIPTABLE : Nat := 0x10
def READ_ONLY : Nat := 0x20

/-- The `static ALL_TAGS` slice generated by `bitterflag!` for
`PropertyTags`: every declared constant in declaration order. -/
def ALL_TAGS : List Nat :=
  [DEPRECATED, HIDDEN, NOT_BROWSABLE, NOT_REPLICATED, NOT_SCRIPTABLE,
   READ_ONLY]

/-- `IntoIterator for PropertyTags`: `ALL_TAGS` filtered by `contains`. -/
def into_iter (v : Nat) : List Nat :=
  ALL_TAGS.filter (fun flag => Tags.contains v flag)

end PropertyTags

/-- Rust `struct PropertyTagsFromStrError(String)`. -/
inductive PropertyTagsFromStrError where
  | mk : String → PropertyTagsFromStrError
deriving DecidableEq, Repr

namespace PropertyTags

/-- `impl FromStr for PropertyTags`: exact match against the canonical
names, any other string is an error carrying the string verbatim. -/
def from_str (value : String) : Except PropertyTagsFromStrError Nat :=
  if value = "Deprecated" then .ok DEPRECATED
  else if value = "Hidden" then .ok HIDDEN
  else if value = "NotBrowsable" then .ok NOT_BROWSABLE
  else if value = "NotReplicated" then .ok NOT_REPLICATED
  else if value = "NotScriptable" then .ok NOT_SCRIPTABLE
  else if value = "ReadOnly" then .ok READ_ONLY
  else .error (PropertyTagsFromStrError.mk value)

/-- The canonical (name, flag) table of `PropertyTags`, read off the
`FromStr` match arms in order. -/
def table : List (String × Nat) :=
  [("Deprecated", DEPRECATED), ("Hidden", HIDDEN),
   ("NotBrowsable", NOT_BROWSABLE), ("NotReplicated", NOT_REPLICATED),
   ("NotScriptable", NOT_SCRIPTABLE), ("ReadOnly", READ_ONLY)]

/-- The canonical names of `PropertyTags`. -/
def names : List String := table.map Prod.fst

/-- Modelled from the spec: reverse mapping (flag → canonical name), as the
lookup of a flag's declared name in the canonical table; no such function
exists under `src/`. -/
def to_str (flag : Nat) : Option String :=
  (table.find? (fun p => p.2 == flag)).map Prod.fst

end PropertyTags

/-- C6: for every name string s, `PropertyDescriptor::new(s)` yields a
descriptor whose name is s and whose scriptability is `Scriptability::None`,
with no error path (the constructor is total). -/
theorem propertyDescriptor_new_spec (s : String) :
    (PropertyDescriptor.new s).name = s ∧
    (PropertyDescriptor.new s).scriptability = Scriptability.None :=
  ⟨rfl, rfl⟩

/-- C7: for every name string s, `ClassDescriptor::new(s)` yields a
descriptor whose name is s, whose superclass is absent, and whose
properties and default_properties maps are empty, with no error path. -/
theorem classDescriptor_new_spec (s : String) :
    (ClassDescriptor.new s).name = s ∧
    (ClassDescriptor.new s).superclass = Option.none ∧
    (ClassDescriptor.new s).properties = [] ∧
    (ClassDescriptor.new s).default_properties = [] :=
  ⟨rfl, rfl, rfl, rfl⟩

/-- C8: `ReflectionDatabase::new()` yields a database with version
`[0, 0, 0, 0]` and an empty classes map, with no error path. -/
theorem reflectionDatabase_new_spec :
    ReflectionDatabase.new.version = (0, 0, 0, 0) ∧
    ReflectionDatabase.new.classes = [] :=
  ⟨rfl, rfl⟩

/-- C5: parsing "NotBrowsable" succeeds for both tag kinds and yields each
kind's own single-bit `NOT_BROWSABLE` value (`0x2` for `InstanceTags`,
`0x4` for `PropertyTags`): the vocabularies are independent despite the
shared name. -/
theorem parse_notBrowsable_both_kinds :
    InstanceTags.from_str "NotBrowsable" = .ok InstanceTags.NOT_BROWSABLE ∧
    PropertyTags.from_str "NotBrowsable" = .ok PropertyTags.NOT_BROWSABLE ∧
    InstanceTags.NOT_BROWSABLE = 0x2 ∧
    PropertyTags.NOT_BROWSABLE = 0x4 := by
  refine ⟨?_, ?_, rfl, rfl⟩ <;> decide

/-- C10: within each tag kind every declared flag has exactly one bit set,
the declared flags are pairwise bit-disjoint (`InstanceTags` uses bits
`0x1`–`0x80`, `PropertyTags` bits `0x1`–`0x20`), and distinct canonical
names parse to distinct single-bit flags. -/
theorem tag_flags_single_bit_disjoint :
    InstanceTags.ALL_TAGS = [0x1, 0x2, 0x4, 0x8, 0x10, 0x20, 0x40, 0x80] ∧
    PropertyTags.ALL_TAGS = [0x1, 0x2, 0x4, 0x8, 0x10, 0x20] ∧
    (∀ f ∈ InstanceTags.ALL_TAGS, ∃ i, i < 8 ∧ f = 2 ^ i) ∧
    (∀ f ∈ PropertyTags.ALL_TAGS, ∃ i, i < 6 ∧ f = 2 ^ i) ∧
    (∀ f ∈ InstanceTags.ALL_TAGS, ∀ g ∈ InstanceTags.ALL_TAGS,
      f ≠ g → f &&& g = 0) ∧
    (∀ f ∈ PropertyTags.ALL_TAGS, ∀ g ∈ PropertyTags.ALL_TAGS,
      f ≠ g → f &&& g = 0) ∧
    (∀ p ∈ InstanceTags.table, ∀ q ∈ InstanceTags.table,
      p.1 ≠ q.1 → InstanceTags.from_str p.1 ≠ InstanceTags.from_str q.1) ∧
    (∀ p ∈ PropertyTags.table, ∀ q ∈ PropertyTags.table,
      p.1 ≠ q.1 → PropertyTags.from_str p.1 ≠ PropertyTags.from_str q.1) := by
  refine ⟨rfl, rfl, ?_, ?_, ?_, ?_, ?_, ?_⟩ <;> decide

lemma Tags.contains_pow (v i : Nat) :
    Tags.contains v (2 ^ i) = v.testBit i := by
  unfold Tags.contains
  rw [Nat.and_two_pow]
  cases h : v.testBit i <;> simp [h, (Nat.two_pow_pos i).ne]

lemma Tags.contains_or_pow (v w i : Nat) :
    Tags.contains (v ||| w) (2 ^ i) =
      (Tags.contains v (2 ^ i) || Tags.contains w (2 ^ i)) := by
  rw [Tags.contains_pow, Tags.contains_pow, Tags.contains_pow,
    Nat.testBit_lor]

lemma instanceTags_mem_all_pow :
    ∀ f ∈ InstanceTags.ALL_TAGS, ∃ i, i < 8 ∧ f = 2 ^ i := by decide

lemma propertyTags_mem_all_pow :
    ∀ f ∈ PropertyTags.ALL_TAGS, ∃ i, i < 6 ∧ f = 2 ^ i := by decide

set_option maxRecDepth 100000 in
set_option maxHeartbeats 1000000 in
/-- C1: for every flag-set value v of a tag kind (only declared bits set, the
bitflags type invariant: below `0x100` for `InstanceTags`, `0x40` for
`PropertyTags`), iterating v yields exactly the declared flags whose bits are
set in v, as a sublist of the declaration-ordered flag list (hence in fixed
declaration order), with length the number of set bits of v, no duplicates,
and non-empty iff v is nonzero.  Iteration is embedded as the pure function
`into_iter`, so re-iterating the same v from scratch reproduces the identical
sequence (last conjunct) and cannot consume or clear v. -/
theorem tag_iteration_contract (v w : Nat) (hv : v < 0x100) (hw : w < 0x40) :
    ((∀ f, f ∈ InstanceTags.into_iter v ↔
        f ∈ InstanceTags.ALL_TAGS ∧ ∃ i, f = 2 ^ i ∧ v.testBit i = true) ∧
      (InstanceTags.into_iter v).Sublist InstanceTags.ALL_TAGS ∧
      (InstanceTags.into_iter v).length = popcount v ∧
      (InstanceTags.into_iter v).Nodup ∧
      (InstanceTags.into_iter v ≠ [] ↔ v ≠ 0) ∧
      InstanceTags.into_iter v = InstanceTags.into_iter v) ∧
    ((∀ f, f ∈ PropertyTags.into_iter w ↔
        f ∈ PropertyTags.ALL_TAGS ∧ ∃ i, f = 2 ^ i ∧ w.testBit i = true) ∧
      (PropertyTags.into_iter w).Sublist PropertyTags.ALL_TAGS ∧
      (PropertyTags.into_iter w).length = popcount w ∧
      (PropertyTags.into_iter w).Nodup ∧
      (PropertyTags.into_iter w ≠ [] ↔ w ≠ 0) ∧
      PropertyTags.into_iter w = PropertyTags.into_iter w) := by
  have hIlen : ∀ x < 0x100, (InstanceTags.into_iter x).length = popcount x ∧
      (InstanceTags.into_iter x ≠ [] ↔ x ≠ 0) := by decide
  have hPlen : ∀ x < 0x40, (PropertyTags.into_iter x).length = popcount x ∧
      (PropertyTags.into_iter x ≠ [] ↔ x ≠ 0) := by decide
  refine ⟨⟨?_, List.filter_sublist _,
      (hIlen v hv).1, ?_, (hIlen v hv).2, rfl⟩,
    ⟨?_, List.filter_sublist _, (hPlen w hw).1, ?_, (hPlen w hw).2, rfl⟩⟩
  · intro f
    simp only [InstanceTags.into_iter, List.mem_filter]
    constructor
    · rintro ⟨hf, hc⟩
      obtain ⟨i, _, rfl⟩ := instanceTags_mem_all_pow f hf
      exact ⟨hf, i, rfl, by rwa [Tags.contains_pow] at hc⟩
    · rintro ⟨hf, i, rfl, hb⟩
      exact ⟨hf, by rwa [Tags.contains_pow]⟩
  · exact (show InstanceTags.ALL_TAGS.Nodup by decide).filter _
  · intro f
    simp only [PropertyTags.into_iter, List.mem_filter]
    constructor
    · rintro ⟨hf, hc⟩
      obtain ⟨i, _, rfl⟩ := propertyTags_mem_all_pow f hf
      exact ⟨hf, i, rfl, by rwa [Tags.contains_pow] at hc⟩
    · rintro ⟨hf, i, rfl, hb⟩
      exact ⟨hf, by rwa [Tags.contains_pow]⟩
  · exact (show PropertyTags.ALL_TAGS.Nodup by decide).filter _

/-- Witness for C1 at v = 0x21 (Deprecated | Service) and w = 0x3
(Deprecated | Hidden). -/
theorem tag_iteration_contract_witness :
    (InstanceTags.into_iter 0x21).length = popcount 0x21 ∧
    (InstanceTags.into_iter 0x21).Sublist InstanceTags.ALL_TAGS ∧
    (PropertyTags.into_iter 0x3).length = popcount 0x3 ∧
    (PropertyTags.into_iter 0x3 ≠ [] ↔ (0x3 : Nat) ≠ 0) :=
  ⟨(tag_iteration_contract 0x21 0x3 (by decide) (by decide)).1.2.2.1,
   (tag_iteration_contract 0x21 0x3 (by decide) (by decide)).1.2.1,
   (tag_iteration_contract 0x21 0x3 (by decide) (by decide)).2.2.2.1,
   (tag_iteration_contract 0x21 0x3 (by decide) (by decide)).2.2.2.2.2.1⟩

lemma instanceTags_from_str_not_mem (s : String)
    (hs : s ∉ InstanceTags.names) :
    InstanceTags.from_str s = .error (InstanceTagsFromStrError.mk s) := by
  unfold InstanceTags.from_str
  split_ifs <;> first
    | rfl
    | (subst_vars; exact absurd (by decide) hs)

lemma propertyTags_from_str_not_mem (s : String)
    (hs : s ∉ PropertyTags.names) :
    PropertyTags.from_str s = .error (PropertyTagsFromStrError.mk s) := by
  unfold PropertyTags.from_str
  split_ifs <;> first
    | rfl
    | (subst_vars; exact absurd (by decide) hs)

/-- C2: for each tag kind, parsing a string succeeds iff it exactly matches a
canonical name (case-sensitive), yielding the single corresponding one-bit
flag; every other string s fails with an unrecognized-tag error carrying s
verbatim.  The embedded `from_str` is total, so no input panics. -/
theorem from_str_exact_match (s : String) :
    (∀ p ∈ InstanceTags.table, InstanceTags.from_str p.1 = .ok p.2) ∧
    (s ∉ InstanceTags.names →
      InstanceTags.from_str s = .error (InstanceTagsFromStrError.mk s)) ∧
    ((∃ f, InstanceTags.from_str s = .ok f) ↔ s ∈ InstanceTags.names) ∧
    (∀ p ∈ PropertyTags.table, PropertyTags.from_str p.1 = .ok p.2) ∧
    (s ∉ PropertyTags.names →
      PropertyTags.from_str s = .error (PropertyTagsFromStrError.mk s)) ∧
    ((∃ f, PropertyTags.from_str s = .ok f) ↔ s ∈ PropertyTags.names) := by
  refine ⟨by decide, instanceTags_from_str_not_mem s, ?_, by decide,
    propertyTags_from_str_not_mem s, ?_⟩
  · constructor
    · rintro ⟨f, hf⟩
      by_contra hs
      rw [instanceTags_from_str_not_mem s hs] at hf
      exact Except.noConfusion hf
    · intro hs
      rw [InstanceTags.names, List.mem_map] at hs
      obtain ⟨p, hp, rfl⟩ := hs
      exact ⟨p.2, by revert hp; revert p; decide⟩
  · constructor
    · rintro ⟨f, hf⟩
      by_contra hs
      rw [propertyTags_from_str_not_mem s hs] at hf
      exact Except.noConfusion hf
    · intro hs
      rw [PropertyTags.names, List.mem_map] at hs
      obtain ⟨p, hp, rfl⟩ := hs
      exact ⟨p.2, by revert hp; revert p; decide⟩

/-- Witness for C2 at the unrecognized string "Bogus" and the canonical name
"Service". -/
theorem from_str_exact_match_witness :
    InstanceTags.from_str "Bogus" =
      .error (InstanceTagsFromStrError.mk "Bogus") ∧
    PropertyTags.from_str "Bogus" =
      .error (PropertyTagsFromStrError.mk "Bogus") ∧
    InstanceTags.from_str "Service" = .ok InstanceTags.SERVICE :=
  ⟨(from_str_exact_match "Bogus").2.1 (by decide),
   (from_str_exact_match "Bogus").2.2.2.2.1 (by decide),
   (from_str_exact_match "Service").1 ("Service", InstanceTags.SERVICE)
     (by decide)⟩

/-- C3: for every tag kind and every canonical name n, parsing n yields a
single-bit flag whose canonical name under the reverse mapping `to_str` is
exactly n: the name → flag → name round trip is the identity.  `names` is by
definition the first projection of `table`, so the two conjuncts per kind
cover every valid canonical name. -/
theorem name_flag_name_roundtrip :
    InstanceTags.names = InstanceTags.table.map Prod.fst ∧
    PropertyTags.names = PropertyTags.table.map Prod.fst ∧
    (∀ p ∈ InstanceTags.table,
      InstanceTags.from_str p.1 = .ok p.2 ∧
      InstanceTags.to_str p.2 = some p.1) ∧
    (∀ p ∈ PropertyTags.table,
      PropertyTags.from_str p.1 = .ok p.2 ∧
      PropertyTags.to_str p.2 = some p.1) := by
  refine ⟨rfl, rfl, ?_, ?_⟩ <;> decide

/-- Witness for C3 at the canonical name "Deprecated" of each kind. -/
theorem name_flag_name_roundtrip_witness :
    (InstanceTags.from_str "Deprecated" = .ok InstanceTags.DEPRECATED ∧
      InstanceTags.to_str InstanceTags.DEPRECATED = some "Deprecated") ∧
    (PropertyTags.from_str "Deprecated" = .ok PropertyTags.DEPRECATED ∧
      PropertyTags.to_str PropertyTags.DEPRECATED = some "Deprecated") :=
  ⟨name_flag_name_roundtrip.2.2.1 ("Deprecated", InstanceTags.DEPRECATED)
      (by decide),
   name_flag_name_roundtrip.2.2.2 ("Deprecated", PropertyTags.DEPRECATED)
      (by decide)⟩

/-- C4: for all flag-set values v, w of the same tag kind, a flag is produced
by iterating the bitwise union `v ||| w` iff it is produced by iterating v or
by iterating w: the set of flags of the union is the union of the sets. -/
theorem iterate_or_is_union (v w f : Nat) :
    (f ∈ InstanceTags.into_iter (v ||| w) ↔
      f ∈ InstanceTags.into_iter v ∨ f ∈ InstanceTags.into_iter w) ∧
    (f ∈ PropertyTags.into_iter (v ||| w) ↔
      f ∈ PropertyTags.into_iter v ∨ f ∈ PropertyTags.into_iter w) := by
  constructor
  · simp only [InstanceTags.into_iter, List.mem_filter]
    constructor
    · rintro ⟨hf, hc⟩
      obtain ⟨i, _, rfl⟩ := instanceTags_mem_all_pow f hf
      rw [Tags.contains_or_pow] at hc
      simp only [Bool.or_eq_true] at hc
      rcases hc with h | h
      · exact Or.inl ⟨hf, h⟩
      · exact Or.inr ⟨hf, h⟩
    · rintro (⟨hf, hc⟩ | ⟨hf, hc⟩) <;>
      · obtain ⟨i, _, rfl⟩ := instanceTags_mem_all_pow f hf
        rw [Tags.contains_or_pow]
        exact ⟨hf, by simp [hc]⟩
  · simp only [PropertyTags.into_iter, List.mem_filter]
    constructor
    · rintro ⟨hf, hc⟩
      obtain ⟨i, _, rfl⟩ := propertyTags_mem_all_pow f hf
      rw [Tags.contains_or_pow] at hc
      simp only [Bool.or_eq_true] at hc
      rcases hc with h | h
      · exact Or.inl ⟨hf, h⟩
      · exact Or.inr ⟨hf, h⟩
    · rintro (⟨hf, hc⟩ | ⟨hf, hc⟩) <;>
      · obtain ⟨i, _, rfl⟩ := propertyTags_mem_all_pow f hf
        rw [Tags.contains_or_pow]
        exact ⟨hf, by simp [hc]⟩

/-- Modelled from the spec: the "structured, self-describing" serialized
snapshot form.  The serde derive implementations on `ReflectionDatabase`,
`ClassDescriptor` and `PropertyDescriptor` are generated code not under
`src/`; we model the self-describing value space they target. -/
inductive JValue where
  | num : Nat → JValue
  | str : String → JValue
  | arr : List JValue → JValue
  | obj : List (String × JValue) → JValue

/-- Field lookup by name in an encoded object, as a self-describing decoder
does. -/
def getField (fields : List (String × JValue)) (k : String) : Option JValue :=
  (fields.find? (fun p => p.1 == k)).map Prod.snd

/-- Modelled from the spec: serde encoding of the unit enum `Scriptability`
as its variant name. -/
def encodeScriptability : Scriptability → JValue
  | .None => .str "None"
  | .ReadWrite => .str "ReadWrite"
  | .Read => .str "Read"
  | .Write => .str "Write"
  | .Custom => .str "Custom"

/-- Modelled from the spec: decoding of `Scriptability` from its variant
name; anything else is a decode failure. -/
def decodeScriptability : JValue → Option Scriptability
  | .str "None" => some .None
  | .str "ReadWrite" => some .ReadWrite
  | .str "Read" => some .Read
  | .str "Write" => some .Write
  | .str "Custom" => some .Custom
  | _ => none

/-- Modelled from the spec: encoding of the external `Variant` value. -/
def encodeVariant : Variant → JValue
  | .mk n => .num n

/-- Modelled from the spec: decoding of the external `Variant` value. -/
def decodeVariant : JValue → Option Variant
  | .num n => some (.mk n)
  | _ => none

/-- Modelled from the spec: serde encoding of `PropertyDescriptor` as an
object with its two named fields. -/
def encodeProp (p : PropertyDescriptor) : JValue :=
  .obj [("name", .str p.name),
        ("scriptability", encodeScriptability p.scriptability)]

/-- Modelled from the spec: decoding of `PropertyDescriptor`; both fields
are required. -/
def decodeProp (j : JValue) : Option PropertyDescriptor :=
  match j with
  | .obj fields =>
    match getField fields "name", getField fields "scriptability" with
    | some (.str n), some sj =>
      match decodeScriptability sj with
      | some sc => some { name := n, scriptability := sc }
      | none => none
    | _, _ => none
  | _ => none

/-- Modelled from the spec: serde map encoding, entry by entry. -/
def encodeEntries {α : Type} (enc : α → JValue)
    (m : List (String × α)) : List (String × JValue) :=
  m.map (fun p => (p.1, enc p.2))

/-- Modelled from the spec: serde map decoding, failing on the first bad
entry. -/
def decodeEntries {α : Type} (dec : JValue → Option α) :
    List (String × JValue) → Option (List (String × α))
  | [] => some []
  | (k, v) :: rest =>
    match dec v with
    | some a =>
      match decodeEntries dec rest with
      | some l => some ((k, a) :: l)
      | none => none
    | none => none

/-- Modelled from the spec: the encoded field list of a `ClassDescriptor`.
Per the serde attribute on `superclass` (skip serializing when the option
is absent), the "superclass" field is omitted when `superclass` is
`Option.none`. -/
def encodeClassFields (c : ClassDescriptor) : List (String × JValue) :=
  [("name", .str c.name)] ++
  (match c.superclass with
   | some s => [("superclass", .str s)]
   | Option.none => []) ++
  [("properties", .obj (encodeEntries encodeProp c.properties)),
   ("default_properties",
     .obj (encodeEntries encodeVariant c.default_properties))]

/-- Modelled from the spec: serde encoding of `ClassDescriptor`. -/
def encodeClass (c : ClassDescriptor) : JValue :=
  .obj (encodeClassFields c)

/-- Modelled from the spec: decoding of `ClassDescriptor`.  Per the serde
default attribute, a missing "superclass" field decodes to absent, not to
an error; a present but non-string "superclass" is an error. -/
def decodeClass (j : JValue) : Option ClassDescriptor :=
  match j with
  | .obj fields =>
    match getField fields "name" with
    | some (.str n) =>
      match (match getField fields "superclass" with
             | Option.none => some Option.none
             | some (.str s) => some (some s)
             | some _ => Option.none) with
      | some sup =>
        match getField fields "properties" with
        | some (.obj pf) =>
          match decodeEntries decodeProp pf with
          | some props =>
            match getField fields "default_properties" with
            | some (.obj df) =>
              match decodeEntries decodeVariant df with
              | some defs =>
                some { name := n, superclass := sup, properties := props,
                       default_properties := defs }
              | Option.none => Option.none
            | _ => Option.none
          | Option.none => Option.none
        | _ => Option.none
      | Option.none => Option.none
    | _ => Option.none
  | _ => Option.none

/-- Modelled from the spec: serde encoding of `ReflectionDatabase` (the
`[u32; 4]` version as a 4-element array, then the class map). -/
def encodeDb (db : ReflectionDatabase) : JValue :=
  .obj [("version",
          .arr [.num db.version.1, .num db.version.2.1,
                .num db.version.2.2.1, .num db.version.2.2.2]),
        ("classes", .obj (encodeEntries encodeClass db.classes))]

/-- Modelled from the spec: decoding of `ReflectionDatabase`. -/
def decodeDb (j : JValue) : Option ReflectionDatabase :=
  match j with
  | .obj fields =>
    match getField fields "version" with
    | some (.arr [.num a, .num b, .num c, .num d]) =>
      match getField fields "classes" with
      | some (.obj cf) =>
        match decodeEntries decodeClass cf with
        | some cls => some { version := (a, b, c, d), classes := cls }
        | Option.none => Option.none
      | _ => Option.none
    | _ => Option.none
  | _ => Option.none

lemma decodeScriptability_encode (s : Scriptability) :
    decodeScriptability (encodeScriptability s) = some s := by
  cases s <;> rfl

lemma decodeVariant_encode (x : Variant) :
    decodeVariant (encodeVariant x) = some x := by
  cases x; rfl

lemma decodeProp_encode (p : PropertyDescriptor) :
    decodeProp (encodeProp p) = some p := by
  obtain ⟨n, sc⟩ := p
  cases sc <;> rfl

lemma decodeEntries_encodeEntries {α : Type} (enc : α → JValue)
    (dec : JValue → Option α) (h : ∀ a, dec (enc a) = some a) :
    ∀ m : List (String × α),
      decodeEntries dec (encodeEntries enc m) = some m := by
  intro m
  induction m with
  | nil => rfl
  | cons p rest ih =>
    obtain ⟨k, a⟩ := p
    simp only [encodeEntries, List.map_cons] at ih ⊢
    rw [decodeEntries, h a, ih]

lemma decodeClass_encode (c : ClassDescriptor) :
    decodeClass (encodeClass c) = some c := by
  obtain ⟨n, sup, props, defs⟩ := c
  cases sup <;>
  · simp only [encodeClass, encodeClassFields, decodeClass, getField,
      List.find?, List.append_assoc, List.cons_append, List.nil_append]
    simp [decodeEntries_encodeEntries encodeProp decodeProp
        decodeProp_encode,
      decodeEntries_encodeEntries encodeVariant decodeVariant
        decodeVariant_encode]

/-- C9: encoding a reflection database to the snapshot form and decoding it
back yields a database field-for-field equal to the original; an absent
superclass is omitted from the encoded field list and decodes back to
absent rather than to an empty string or an error. -/
theorem snapshot_roundtrip :
    (∀ db : ReflectionDatabase, decodeDb (encodeDb db) = some db) ∧
    (∀ c : ClassDescriptor,
      ("superclass" ∈ (encodeClassFields c).map Prod.fst ↔
        c.superclass ≠ Option.none)) := by
  constructor
  · intro db
    obtain ⟨⟨a, b, c, d⟩, classes⟩ := db
    simp only [encodeDb, decodeDb, getField, List.find?]
    simp [decodeEntries_encodeEntries encodeClass decodeClass
      decodeClass_encode]
  · intro c
    cases h : c.superclass <;> simp [encodeClassFields, h]

/-- Witness for C10 at the Deprecated and Service flags of `InstanceTags`. -/
theorem tag_flags_single_bit_disjoint_witness :
    InstanceTags.DEPRECATED &&& InstanceTags.SERVICE = 0 ∧
    InstanceTags.from_str "Deprecated" ≠ InstanceTags.from_str "Service" :=
  ⟨tag_flags_single_bit_disjoint.2.2.2.2.1 InstanceTags.DEPRECATED
      (by decide) InstanceTags.SERVICE (by decide) (by decide),
   tag_flags_single_bit_disjoint.2.2.2.2.2.2.1
      ("Deprecated", InstanceTags.DEPRECATED) (by decide)
      ("Service", InstanceTags.SERVICE) (by decide) (by decide)⟩
